import Mathlib

/-!
Shallow embedding of the RES4 archive extractor (src/src/main.rs).

The archive is modelled as a `List Nat` of byte values; a read position is an
explicit `Nat` index. Reads past the end of the list model `std::io::Error`
from `read_exact` / `read_u32`. The Rust program validates with `assert!`,
which panics; panics and the debug-profile arithmetic panics are modelled as
values of `RgsError`:
  - `formatError`: a failed validation assert in the header / type-table stage
    (lines 98, 110, 116, 120, 121, 124 of main.rs), including the
    debug-profile overflow panic of the u32 sum `filetypes_end +
    filenames_size` and of the u32 product `num_files * 88`, which abort on
    the same malformed inputs those asserts guard;
  - `underflow`: the debug-profile panic of the u32 subtraction
    `filetypes_end - filetypes_start` (line 102);
  - `consistencyError`: the failed `assert_eq!` comparing the inline name
    entry with the tail-table name entry (line 188);
  - `sliceError`: the panic of the slice expression `bytes[0..4]` in the RIFF
    check when the payload is shorter than 4 bytes (line 192);
  - `ioError`: a failed read.
Console output that the extractor produces per entry (the zero-byte warning,
the RIFF warning) and each written output file are modelled as `Event`s, in
emission order.
-/

/-- Error outcomes of the extractor, classifying the panic / IO-error exits of
`main` as described in the module comment. -/
inductive RgsError where
  | ioError
  | formatError
  | underflow
  | consistencyError
  | sliceError
deriving DecidableEq, Repr

/-- Observable per-entry outputs of the extractor: the zero-byte warning
(`eprintln` at line 181), the bad-RIFF warning (`eprintln` at line 193) and a
written output file (`std::fs::write` at line 196, the file name joined under
the output directory). -/
inductive Event where
  | zeroByteWarning (name : String)
  | riffWarning (name : String)
  | wrote (name : String) (bytes : List Nat)
deriving DecidableEq, Repr

/-- FileTypeEntry of main.rs: a `kind` tag and the absolute offset `addr` of
the entry's inline descriptor. -/
structure FileTypeEntry where
  kind : Nat
  addr : Nat
deriving DecidableEq, Repr

/-- FileNameEntry of main.rs: the decoded 88-byte descriptor record. -/
structure FileNameEntry where
  index : Nat
  name : String
  unk2 : Nat
  size_in_bytes : Nat
  sample_rate : Nat
  unk5 : Nat
  probably_channel_count : Nat
deriving DecidableEq, Repr

/-- Default used for out-of-range list indexing of the type table (the Rust
indexings `file_type_table[i]` are all in range when reached). -/
def dftType : FileTypeEntry := ⟨0, 0⟩

/-- Default used for out-of-range list indexing of the tail name table. -/
def dftName : FileNameEntry := ⟨0, "", 0, 0, 0, 0, 0⟩

deriving instance DecidableEq for Except

/-- Header fields of the archive as read by `main` (lines 100-103):
`filetypes_start`, `filetypes_end` and `filenames_size`. -/
structure ArchiveHeader where
  filetypes_start : Nat
  filetypes_end : Nat
  filenames_size : Nat
deriving DecidableEq, Repr

/-- read_u32 LittleEndian: four bytes at `pos`, least significant first;
`none` models the IO error when fewer than four bytes remain. -/
def read_u32 (data : List Nat) (pos : Nat) : Option Nat :=
  match data.get? pos, data.get? (pos+1), data.get? (pos+2), data.get? (pos+3) with
  | some b0, some b1, some b2, some b3 =>
      some (b0 + 256 * b1 + 65536 * b2 + 16777216 * b3)
  | _, _, _, _ => none

/-- read_bytes_vec / read_bytes_arr: `read_exact` of `n` bytes at `pos`,
failing (like `std::io::Read::read_exact`) when fewer than `n` remain. -/
def read_bytes (data : List Nat) (pos n : Nat) : Option (List Nat) :=
  if pos + n ≤ data.length then some ((data.drop pos).take n) else none

/-- Decoding step of read_padded_string: push each byte `as char` until the
first nul byte (or the end of the buffer). -/
def decodePadded (bs : List Nat) : String :=
  String.mk ((bs.takeWhile (fun b => b != 0)).map Char.ofNat)

/-- read_padded_string::<64>: read the fixed 64-byte field at `pos` and decode
it up to the first nul byte. -/
def read_padded_string (data : List Nat) (pos : Nat) : Option String :=
  (read_bytes data pos 64).map decodePadded

/-- read_file_type_entry: kind then addr, 8 bytes at `pos`. -/
def read_file_type_entry (data : List Nat) (pos : Nat) : Option FileTypeEntry :=
  match read_u32 data pos, read_u32 data (pos+4) with
  | some k, some a => some ⟨k, a⟩
  | _, _ => none

/-- read_file_type_table: `n` consecutive 8-byte type entries from `pos`. -/
def read_file_type_table (data : List Nat) (pos : Nat) : Nat → Option (List FileTypeEntry)
  | 0 => some []
  | n+1 =>
    match read_file_type_entry data pos, read_file_type_table data (pos+8) n with
    | some e, some rest => some (e :: rest)
    | _, _ => none

/-- read_file_name_entry: the 88-byte descriptor at `pos` — u32 index, 64-byte
nul-padded name, then five u32 fields. -/
def read_file_name_entry (data : List Nat) (pos : Nat) : Option FileNameEntry :=
  match read_u32 data pos, read_padded_string data (pos+4), read_u32 data (pos+68),
        read_u32 data (pos+72), read_u32 data (pos+76), read_u32 data (pos+80),
        read_u32 data (pos+84) with
  | some i, some nm, some u2, some sz, some sr, some u5, some pc =>
      some ⟨i, nm, u2, sz, sr, u5, pc⟩
  | _, _, _, _, _, _, _ => none

/-- read_file_name_table: `n` consecutive 88-byte name entries from `pos`. -/
def read_file_name_table (data : List Nat) (pos : Nat) : Nat → Option (List FileNameEntry)
  | 0 => some []
  | n+1 =>
    match read_file_name_entry data pos, read_file_name_table data (pos+88) n with
    | some e, some rest => some (e :: rest)
    | _, _ => none

/-- Rust `str::ends_with(".wav")` on the decoded name, expressed as a suffix
test on the name's character list (the name and the pattern are ASCII, where
a UTF-8 byte suffix and a character suffix coincide). -/
def endsWithWav (s : String) : Bool :=
  List.isSuffixOf ".wav".data s.data

/-- ASCII bytes of the literal "RIFF" compared against the payload head. -/
def riffBytes : List Nat := [82, 73, 70, 70]

/-- Header stage of `main` (lines 91-110): compute the file size, read and
check the magic, read the three region fields, compute the (debug-checked)
u32 difference `filetypes_end - filetypes_start`, and check
`file_size == filetypes_end + filenames_size` (whose u32 sum also aborts when
it cannot be formed without overflow). -/
def parseHeader (data : List Nat) : Except RgsError ArchiveHeader :=
  match read_u32 data 0 with
  | none => .error .ioError
  | some magic =>
    if magic ≠ 0x52455334 then .error .formatError
    else match read_u32 data 4 with
    | none => .error .ioError
    | some ts =>
      match read_u32 data 8 with
      | none => .error .ioError
      | some te =>
        if te < ts then .error .underflow
        else match read_u32 data 12 with
        | none => .error .ioError
        | some ns =>
          if te + ns < 4294967296 ∧ data.length = te + ns then .ok ⟨ts, te, ns⟩
          else .error .formatError

/-- Type-table stage of `main` (lines 112-124): seek to `filetypes_start`,
read `num_files`, check `filenames_size == num_files * 88` (whose u32 product
also aborts when it overflows), read the type table, check every entry's
`addr` and `kind`, and check that the position after the table equals
`filetypes_end`. -/
def parseTypeTable (data : List Nat) (h : ArchiveHeader) :
    Except RgsError (Nat × List FileTypeEntry) :=
  match read_u32 data h.filetypes_start with
  | none => .error .ioError
  | some nf =>
    if nf * 88 < 4294967296 ∧ h.filenames_size = nf * 88 then
      match read_file_type_table data (h.filetypes_start + 4) nf with
      | none => .error .ioError
      | some tt =>
        if ∀ e ∈ tt, e.addr < data.length ∧ e.kind = 0x534E4432 then
          if h.filetypes_start + 4 + 8 * nf = h.filetypes_end then .ok (nf, tt)
          else .error .formatError
        else .error .formatError
    else .error .formatError

/-- Loop body of the extraction loop (lines 168-197) for one index: seek to
the entry's `addr`, read the inline name entry, skip with a warning when the
position after it already equals the next entry's `addr`, otherwise compare
with the tail-table entry, read the payload, run the RIFF check on `.wav`
names, and write the output file. The result is the emitted events plus the
error that aborts the run, if any. -/
def extractEntry (data : List Nat) (tt : List FileTypeEntry)
    (nt : List FileNameEntry) (nf idx : Nat) : List Event × Option RgsError :=
  match read_file_name_entry data (tt.getD idx dftType).addr with
  | none => ([], some .ioError)
  | some fe =>
    if idx < nf - 1 ∧ (tt.getD idx dftType).addr + 88 = (tt.getD (idx+1) dftType).addr then
      ([.zeroByteWarning fe.name], none)
    else if fe = nt.getD idx dftName then
      match read_bytes data ((tt.getD idx dftType).addr + 88) fe.size_in_bytes with
      | none => ([], some .ioError)
      | some bytes =>
        if endsWithWav fe.name then
          if bytes.length < 4 then ([], some .sliceError)
          else if bytes.take 4 ≠ riffBytes then
            ([.riffWarning fe.name, .wrote fe.name bytes], none)
          else ([.wrote fe.name bytes], none)
        else ([.wrote fe.name bytes], none)
    else ([], some .consistencyError)

/-- Extraction loop: run `extractEntry` for `k` consecutive indices starting
at `idx`, stopping at the first error and concatenating the emitted events. -/
def extractFrom (data : List Nat) (tt : List FileTypeEntry)
    (nt : List FileNameEntry) (nf : Nat) : Nat → Nat → List Event × Option RgsError
  | 0, _ => ([], none)
  | k+1, idx =>
    match extractEntry data tt nt nf idx with
    | (evs, some e) => (evs, some e)
    | (evs, none) =>
      (evs ++ (extractFrom data tt nt nf k (idx+1)).1,
       (extractFrom data tt nt nf k (idx+1)).2)

/-- Whole pipeline of `main`: header stage, type-table stage, tail name
table, then the extraction loop over all `num_files` indices. The result is
the ordered list of emitted events and the error that aborted the run, when
one did. -/
def runMain (data : List Nat) : List Event × Option RgsError :=
  match parseHeader data with
  | .error e => ([], some e)
  | .ok h =>
    match parseTypeTable data h with
    | .error e => ([], some e)
    | .ok (nf, tt) =>
      match read_file_name_table data h.filetypes_end nf with
      | none => ([], some .ioError)
      | some nt => extractFrom data tt nt nf nf 0

/-- Little-endian byte encoding of a 32-bit value, used to build concrete test
archives. -/
def u32le (v : Nat) : List Nat :=
  [v % 256, v / 256 % 256, v / 65536 % 256, v / 16777216 % 256]

/-- Nul-padding of a name to the fixed 64-byte field width. -/
def padName (cs : List Nat) : List Nat := cs ++ List.replicate (64 - cs.length) 0

/-- On-disk encoding of an 88-byte name entry. -/
def nameEntryBytes (idx : Nat) (nm : List Nat) (u2 sz sr u5 pc : Nat) : List Nat :=
  u32le idx ++ padName nm ++ u32le u2 ++ u32le sz ++ u32le sr ++ u32le u5 ++ u32le pc

/-- Concrete well-formed archive with a single entry named "b" (byte 98) and
payload [66]: header, inline descriptor at 16, payload at 104, type table at
105, tail name table at 117, total length 205 = 117 + 88. -/
def arch1 : List Nat :=
  u32le 0x52455334 ++ u32le 105 ++ u32le 117 ++ u32le 88 ++
  nameEntryBytes 0 [98] 0 1 0 0 0 ++ [66] ++
  u32le 1 ++ u32le 0x534E4432 ++ u32le 16 ++
  nameEntryBytes 0 [98] 0 1 0 0 0

/-- Concrete archive like `arch1` except that the 64-byte name fields of the
inline descriptor and of the tail-table record differ in a padding byte after
the first nul (byte value 1 inline, 2 in the tail): the two 88-byte records
are not bit-for-bit identical, yet both decode to the name "b". -/
def cex2 : List Nat :=
  u32le 0x52455334 ++ u32le 105 ++ u32le 117 ++ u32le 88 ++
  nameEntryBytes 0 [98, 0, 1] 0 1 0 0 0 ++ [66] ++
  u32le 1 ++ u32le 0x534E4432 ++ u32le 16 ++
  nameEntryBytes 0 [98, 0, 2] 0 1 0 0 0

/-- Concrete archive with a single entry named "a.wav" whose declared payload
is only 2 bytes, neither of them part of a RIFF signature. -/
def cex5 : List Nat :=
  u32le 0x52455334 ++ u32le 106 ++ u32le 118 ++ u32le 88 ++
  nameEntryBytes 0 [97, 46, 119, 97, 118] 0 2 0 0 0 ++ [0, 0] ++
  u32le 1 ++ u32le 0x534E4432 ++ u32le 16 ++
  nameEntryBytes 0 [97, 46, 119, 97, 118] 0 2 0 0 0

/-- Concrete archive with a single entry named "a.wav" with a 4-byte payload
[1, 2, 3, 4] that does not start with the RIFF signature. -/
def arch5 : List Nat :=
  u32le 0x52455334 ++ u32le 108 ++ u32le 120 ++ u32le 88 ++
  nameEntryBytes 0 [97, 46, 119, 97, 118] 0 4 0 0 0 ++ [1, 2, 3, 4] ++
  u32le 1 ++ u32le 0x534E4432 ++ u32le 16 ++
  nameEntryBytes 0 [97, 46, 119, 97, 118] 0 4 0 0 0

/-- Concrete archive with two entries where entry 0 (named "z") is zero-byte:
its descriptor at 16 is immediately followed by entry 1's descriptor at 104.
Its tail-table record deliberately differs from the inline one. -/
def arch4 : List Nat :=
  u32le 0x52455334 ++ u32le 193 ++ u32le 213 ++ u32le 176 ++
  nameEntryBytes 0 [122] 0 0 0 0 0 ++
  nameEntryBytes 1 [98] 0 1 0 0 0 ++ [66] ++
  u32le 2 ++ u32le 0x534E4432 ++ u32le 16 ++ u32le 0x534E4432 ++ u32le 104 ++
  nameEntryBytes 9 [120] 7 7 7 7 7 ++
  nameEntryBytes 1 [98] 0 1 0 0 0

/-- Concrete malformed archive: correct magic, filetypes region [16, 16), but
filenames_size 100 while the file is only 20 bytes long. -/
def arch3 : List Nat :=
  u32le 0x52455334 ++ u32le 16 ++ u32le 16 ++ u32le 100 ++ u32le 0

/-- Concrete malformed archive: sizes are consistent but the single type
entry's kind is 0 rather than the SND2 tag. -/
def arch6 : List Nat :=
  u32le 0x52455334 ++ u32le 16 ++ u32le 28 ++ u32le 88 ++
  u32le 1 ++ u32le 0 ++ u32le 0 ++ List.replicate 88 0

/-- Concrete malformed archive: valid magic, sizes and type entry, but the
declared filetypes_end (29) is one past the true end of the type table (28). -/
def arch9 : List Nat :=
  u32le 0x52455334 ++ u32le 16 ++ u32le 29 ++ u32le 88 ++
  u32le 1 ++ u32le 0x534E4432 ++ u32le 0 ++ List.replicate 89 0

/-- Concrete malformed archive whose filetypes_end (2) is below its
filetypes_start (5). -/
def arch8 : List Nat := u32le 0x52455334 ++ u32le 5 ++ u32le 2

/-- Concrete archive of four zero bytes: its magic is not the RES4 tag. -/
def arch7 : List Nat := [0, 0, 0, 0]

theorem char_ofNat_toNat (n : Nat) (h : n < 55296) : (Char.ofNat n).toNat = n := by
  have hv : n.isValidChar := Or.inl h
  rw [Char.ofNat, dif_pos hv]
  rfl

theorem read_bytes_eq (data : List Nat) (pos n : Nat) (bs : List Nat)
    (h : read_bytes data pos n = some bs) : bs = (data.drop pos).take n := by
  unfold read_bytes at h
  split at h
  · injection h with h
    exact h.symm
  · cases h

theorem read_u32_total (data : List Nat) (pos : Nat) (h : pos + 4 ≤ data.length) :
    ∃ v, read_u32 data pos = some v := by
  have h0 : pos < data.length := by omega
  have h1 : pos + 1 < data.length := by omega
  have h2 : pos + 2 < data.length := by omega
  have h3 : pos + 3 < data.length := by omega
  unfold read_u32
  rw [List.get?_eq_get h0, List.get?_eq_get h1, List.get?_eq_get h2, List.get?_eq_get h3]
  exact ⟨_, rfl⟩

theorem read_u32_le (data : List Nat) (pos v : Nat) (h : read_u32 data pos = some v) :
    pos + 4 ≤ data.length := by
  by_contra hlt
  have hn : data.get? (pos+3) = none := List.get?_eq_none.mpr (by omega)
  unfold read_u32 at h
  rcases h0 : data.get? pos with _ | b0 <;> rw [h0] at h <;>
    rcases h1 : data.get? (pos+1) with _ | b1 <;> rw [h1] at h <;>
      rcases h2 : data.get? (pos+2) with _ | b2 <;> rw [h2] at h <;>
        rw [hn] at h <;> cases h

theorem extractFrom_step (data : List Nat) (tt : List FileTypeEntry)
    (nt : List FileNameEntry) (nf : Nat) :
    ∀ k idx, (extractFrom data tt nt nf k idx).2 = none →
      ∀ j, idx ≤ j → j < idx + k →
        (extractEntry data tt nt nf j).2 = none ∧
        ∀ ev, ev ∈ (extractEntry data tt nt nf j).1 →
          ev ∈ (extractFrom data tt nt nf k idx).1 := by
  intro k
  induction k with
  | zero =>
    intro idx _ j hj1 hj2
    omega
  | succ k ih =>
    intro idx htot j hj1 hj2
    rcases hstep : extractEntry data tt nt nf idx with ⟨sevs, serr⟩
    cases serr with
    | some e =>
      rw [extractFrom, hstep] at htot
      cases htot
    | none =>
      have hexp : extractFrom data tt nt nf (k+1) idx =
          (sevs ++ (extractFrom data tt nt nf k (idx+1)).1,
           (extractFrom data tt nt nf k (idx+1)).2) := by
        rw [extractFrom, hstep]
      rw [hexp] at htot ⊢
      rcases Nat.eq_or_lt_of_le hj1 with heq | hlt
      · subst heq
        refine ⟨by rw [hstep], fun ev hev => ?_⟩
        rw [hstep] at hev
        exact List.mem_append_left _ hev
      · have hrec := ih (idx+1) htot j hlt (by omega)
        exact ⟨hrec.1, fun ev hev => List.mem_append_right _ (hrec.2 ev hev)⟩

theorem extractEntry_wrote (data : List Nat) (tt : List FileTypeEntry)
    (nt : List FileNameEntry) (nf idx : Nat) (fe : FileNameEntry)
    (h1 : read_file_name_entry data (tt.getD idx dftType).addr = some fe)
    (h2 : ¬(idx < nf - 1 ∧ (tt.getD idx dftType).addr + 88 = (tt.getD (idx+1) dftType).addr))
    (h3 : (extractEntry data tt nt nf idx).2 = none) :
    Event.wrote fe.name ((data.drop ((tt.getD idx dftType).addr + 88)).take fe.size_in_bytes)
      ∈ (extractEntry data tt nt nf idx).1 := by
  simp only [extractEntry, h1, if_neg h2] at h3 ⊢
  by_cases hc : fe = nt.getD idx dftName
  · simp only [if_pos hc] at h3 ⊢
    rcases hb : read_bytes data ((tt.getD idx dftType).addr + 88) fe.size_in_bytes with _ | bytes
    · rw [hb] at h3
      cases h3
    · rw [hb] at h3
      dsimp only at h3
      dsimp only
      have hbe := read_bytes_eq data ((tt.getD idx dftType).addr + 88) fe.size_in_bytes bytes hb
      by_cases hw : endsWithWav fe.name = true
      · rw [if_pos hw] at h3 ⊢
        by_cases hl : bytes.length < 4
        · rw [if_pos hl] at h3
          cases h3
        · rw [if_neg hl] at h3 ⊢
          by_cases hr : bytes.take 4 ≠ riffBytes
          · rw [if_pos hr, ← hbe]
            simp
          · rw [if_neg hr, ← hbe]
            simp
      · rw [if_neg hw, ← hbe]
        simp
  · rw [if_neg hc] at h3
    cases h3

/-- C1: for every well-formed archive (one on which the whole pipeline runs
without error) and every entry index that is not skipped by zero-byte
detection, the run writes an output file named by the decoded name field of
the inline name entry at the entry's data offset, containing exactly the
`size_in_bytes` bytes immediately following that 88-byte inline descriptor. -/
theorem extraction_roundtrip (data : List Nat) (h : ArchiveHeader) (nf : Nat)
    (tt : List FileTypeEntry) (nt : List FileNameEntry) (evs : List Event)
    (idx : Nat) (fe : FileNameEntry)
    (h1 : parseHeader data = Except.ok h)
    (h2 : parseTypeTable data h = Except.ok (nf, tt))
    (h3 : read_file_name_table data h.filetypes_end nf = some nt)
    (h4 : runMain data = (evs, none))
    (h5 : idx < nf)
    (h6 : read_file_name_entry data (tt.getD idx dftType).addr = some fe)
    (h7 : ¬(idx < nf - 1 ∧ (tt.getD idx dftType).addr + 88 = (tt.getD (idx+1) dftType).addr)) :
    Event.wrote fe.name ((data.drop ((tt.getD idx dftType).addr + 88)).take fe.size_in_bytes)
      ∈ evs := by
  have hrun : runMain data = extractFrom data tt nt nf nf 0 := by
    simp only [runMain, h1, h2, h3]
  rw [h4] at hrun
  have htot : (extractFrom data tt nt nf nf 0).2 = none := by
    rw [← hrun]
  have hmem := extractFrom_step data tt nt nf nf 0 htot idx (Nat.zero_le idx) (by omega)
  have hw := extractEntry_wrote data tt nt nf idx fe h6 h7 hmem.1
  have hin := hmem.2 _ hw
  rw [← hrun] at hin
  exact hin

set_option maxRecDepth 10000 in
/-- Witness for C1 at the concrete archive `arch1`: the single entry, named
"b" with one payload byte 66 at offset 104, is written out. -/
theorem extraction_roundtrip_witness :
    Event.wrote "b" ((arch1.drop 104).take 1) ∈ [Event.wrote "b" [66]] :=
  extraction_roundtrip arch1 ⟨105, 117, 88⟩ 1 [⟨0x534E4432, 16⟩] [⟨0, "b", 0, 1, 0, 0, 0⟩]
    [Event.wrote "b" [66]] 0 ⟨0, "b", 0, 1, 0, 0, 0⟩
    (by decide) (by decide) (by decide) (by decide) (by decide) (by decide) (by decide)

/-- C2 (amended): for every entry that is not skipped by zero-byte detection,
the run fails with ConsistencyError exactly when the decoded inline name
entry differs, in some decoded field, from the decoded tail-table name entry
at the same position; when the decoded records are equal — in particular
whenever the two 88-byte on-disk records are bit-for-bit identical —
extraction of the entry proceeds. The on-disk comparison is of decoded
records, so bytes of the name field after its first nul are not compared. -/
theorem consistency_decoded (data : List Nat) (tt : List FileTypeEntry)
    (nt : List FileNameEntry) (nf idx : Nat) (fe : FileNameEntry)
    (h1 : read_file_name_entry data (tt.getD idx dftType).addr = some fe)
    (h2 : ¬(idx < nf - 1 ∧ (tt.getD idx dftType).addr + 88 = (tt.getD (idx+1) dftType).addr)) :
    (extractEntry data tt nt nf idx).2 = some RgsError.consistencyError ↔
      fe ≠ nt.getD idx dftName := by
  simp only [extractEntry, h1, if_neg h2]
  by_cases hc : fe = nt.getD idx dftName
  · rw [if_pos hc]
    refine iff_of_false (fun hx => ?_) (by simp [hc])
    rcases hb : read_bytes data ((tt.getD idx dftType).addr + 88) fe.size_in_bytes with _ | bytes
    · rw [hb] at hx
      cases hx
    · rw [hb] at hx
      dsimp only at hx
      by_cases hw : endsWithWav fe.name = true
      · rw [if_pos hw] at hx
        by_cases hl : bytes.length < 4
        · rw [if_pos hl] at hx
          cases hx
        · rw [if_neg hl] at hx
          by_cases hr : bytes.take 4 ≠ riffBytes
          · rw [if_pos hr] at hx
            cases hx
          · rw [if_neg hr] at hx
            cases hx
      · rw [if_neg hw] at hx
        cases hx
  · rw [if_neg hc]
    exact iff_of_true rfl hc

set_option maxRecDepth 10000 in
/-- Counterexample for C2 as stated: in the concrete archive `cex2` the
88-byte inline record at offset 16 and the 88-byte tail-table record at
offset 117 are not bit-for-bit identical (they differ in a name-field byte
after the first nul), yet the run does not fail with ConsistencyError — it
succeeds and writes the file. -/
theorem consistency_bitwise_cex :
    ((cex2.drop 16).take 88 ≠ (cex2.drop 117).take 88) ∧
    runMain cex2 = ([Event.wrote "b" [66]], none) := by decide

set_option maxRecDepth 10000 in
/-- Witness for the amended C2 at `arch1`: the decoded records agree at entry
0, so the entry does not fail with ConsistencyError. -/
theorem consistency_decoded_witness :
    (extractEntry arch1 [⟨0x534E4432, 16⟩] [⟨0, "b", 0, 1, 0, 0, 0⟩] 1 0).2 ≠
      some RgsError.consistencyError :=
  fun hx =>
    absurd
      ((consistency_decoded arch1 [⟨0x534E4432, 16⟩] [⟨0, "b", 0, 1, 0, 0, 0⟩] 1 0
        ⟨0, "b", 0, 1, 0, 0, 0⟩ (by decide) (by decide)).mp hx)
      (by decide)

/-- C4: when an entry's inline descriptor read ends exactly at the next
entry's data offset, the loop reports the entry as zero-byte and skips it: no
payload is read, nothing is written for it, the tail name table is not
consulted at all for this entry, and extraction continues with the next
index. -/
theorem zero_byte_skip (data : List Nat) (tt : List FileTypeEntry)
    (nt : List FileNameEntry) (nf idx k : Nat) (fe : FileNameEntry)
    (h1 : read_file_name_entry data (tt.getD idx dftType).addr = some fe)
    (h2 : idx < nf - 1)
    (h3 : (tt.getD idx dftType).addr + 88 = (tt.getD (idx+1) dftType).addr) :
    extractFrom data tt nt nf (k+1) idx =
      (Event.zeroByteWarning fe.name :: (extractFrom data tt nt nf k (idx+1)).1,
       (extractFrom data tt nt nf k (idx+1)).2) := by
  have hstep : extractEntry data tt nt nf idx = ([Event.zeroByteWarning fe.name], none) := by
    simp only [extractEntry, h1]
    rw [if_pos (show _ ∧ _ from ⟨h2, h3⟩)]
  simp only [extractFrom, hstep, List.cons_append, List.nil_append]

set_option maxRecDepth 10000 in
/-- Witness for C4 at the concrete archive `arch4`: entry 0 (named "z") is
zero-byte, so the loop emits the warning and moves on to entry 1 — even
though the tail-table record at position 0 differs from the inline one. -/
theorem zero_byte_skip_witness :
    extractFrom arch4 [⟨0x534E4432, 16⟩, ⟨0x534E4432, 104⟩]
        [⟨9, "x", 7, 7, 7, 7, 7⟩, ⟨1, "b", 0, 1, 0, 0, 0⟩] 2 2 0 =
      (Event.zeroByteWarning "z" ::
        (extractFrom arch4 [⟨0x534E4432, 16⟩, ⟨0x534E4432, 104⟩]
          [⟨9, "x", 7, 7, 7, 7, 7⟩, ⟨1, "b", 0, 1, 0, 0, 0⟩] 2 1 1).1,
       (extractFrom arch4 [⟨0x534E4432, 16⟩, ⟨0x534E4432, 104⟩]
          [⟨9, "x", 7, 7, 7, 7, 7⟩, ⟨1, "b", 0, 1, 0, 0, 0⟩] 2 1 1).2) :=
  zero_byte_skip arch4 [⟨0x534E4432, 16⟩, ⟨0x534E4432, 104⟩]
    [⟨9, "x", 7, 7, 7, 7, 7⟩, ⟨1, "b", 0, 1, 0, 0, 0⟩] 2 0 1 ⟨0, "z", 0, 0, 0, 0, 0⟩
    (by decide) (by decide) (by decide)

/-- C5 (amended): for every extracted entry whose decoded name ends in ".wav"
and whose payload has at least 4 bytes, if the payload does not begin with
the ASCII bytes "RIFF" the loop emits a non-fatal warning and still writes
the payload in full; a ".wav" entry whose payload is shorter than 4 bytes
instead aborts the run on the out-of-range slice `bytes[0..4]` before any
write. -/
theorem wav_warning (data : List Nat) (tt : List FileTypeEntry)
    (nt : List FileNameEntry) (nf idx : Nat) (fe : FileNameEntry) (bytes : List Nat)
    (h1 : read_file_name_entry data (tt.getD idx dftType).addr = some fe)
    (h2 : ¬(idx < nf - 1 ∧ (tt.getD idx dftType).addr + 88 = (tt.getD (idx+1) dftType).addr))
    (h3 : fe = nt.getD idx dftName)
    (h4 : read_bytes data ((tt.getD idx dftType).addr + 88) fe.size_in_bytes = some bytes)
    (h5 : endsWithWav fe.name = true)
    (h6 : 4 ≤ bytes.length)
    (h7 : bytes.take 4 ≠ riffBytes) :
    extractEntry data tt nt nf idx =
      ([Event.riffWarning fe.name, Event.wrote fe.name bytes], none) := by
  simp only [extractEntry, h1, if_neg h2, if_pos h3, h4]
  rw [if_pos h5, if_neg (by omega), if_pos h7]

set_option maxRecDepth 10000 in
/-- Counterexample for C5 as stated: in the concrete archive `cex5` the
single entry is named "a.wav" and its 2-byte payload does not begin with
"RIFF", yet no warning is reported and no file is written — the run aborts
on the out-of-range slice of the RIFF check. -/
theorem wav_short_payload_cex :
    read_file_name_entry cex5 16 = some ⟨0, "a.wav", 0, 2, 0, 0, 0⟩ ∧
    endsWithWav "a.wav" = true ∧
    runMain cex5 = ([], some RgsError.sliceError) := by decide

set_option maxRecDepth 10000 in
/-- Witness for the amended C5 at the concrete archive `arch5`: entry "a.wav"
has the 4-byte payload [1, 2, 3, 4], which is not "RIFF", so the loop warns
and still writes the file. -/
theorem wav_warning_witness :
    extractEntry arch5 [⟨0x534E4432, 16⟩] [⟨0, "a.wav", 0, 4, 0, 0, 0⟩] 1 0 =
      ([Event.riffWarning "a.wav", Event.wrote "a.wav" [1, 2, 3, 4]], none) :=
  wav_warning arch5 [⟨0x534E4432, 16⟩] [⟨0, "a.wav", 0, 4, 0, 0, 0⟩] 1 0
    ⟨0, "a.wav", 0, 4, 0, 0, 0⟩ [1, 2, 3, 4]
    (by decide) (by decide) (by decide) (by decide) (by decide) (by decide) (by decide)

/-- C7: an archive whose first four bytes do not decode to the little-endian
RES4 tag makes the header stage fail with FormatError, and the whole run
produces that error and no output, whatever the rest of the file holds. -/
theorem magic_check (data : List Nat) (m : Nat)
    (h0 : read_u32 data 0 = some m) (h1 : m ≠ 0x52455334) :
    parseHeader data = Except.error RgsError.formatError ∧
    runMain data = ([], some RgsError.formatError) := by
  have hph : parseHeader data = Except.error RgsError.formatError := by
    simp only [parseHeader, h0]
    rw [if_pos h1]
  exact ⟨hph, by simp only [runMain, hph]⟩

/-- Witness for C7 at the four-zero-byte archive `arch7`. -/
theorem magic_check_witness :
    parseHeader arch7 = Except.error RgsError.formatError ∧
    runMain arch7 = ([], some RgsError.formatError) :=
  magic_check arch7 0 (by decide) (by decide)

/-- C8: an archive with a valid magic whose filetypes_end is below its
filetypes_start makes the header stage abort on the underflowing u32
subtraction, and no later stage runs: the run produces that error and no
events. -/
theorem header_underflow (data : List Nat) (ts te : Nat)
    (h0 : read_u32 data 0 = some 0x52455334)
    (h1 : read_u32 data 4 = some ts)
    (h2 : read_u32 data 8 = some te)
    (h3 : te < ts) :
    parseHeader data = Except.error RgsError.underflow ∧
    runMain data = ([], some RgsError.underflow) := by
  have hph : parseHeader data = Except.error RgsError.underflow := by
    simp only [parseHeader, h0, h1, h2]
    rw [if_neg (fun hx => hx rfl), if_pos h3]
  exact ⟨hph, by simp only [runMain, hph]⟩

/-- Witness for C8 at the concrete archive `arch8` (start 5, end 2). -/
theorem header_underflow_witness :
    parseHeader arch8 = Except.error RgsError.underflow ∧
    runMain arch8 = ([], some RgsError.underflow) :=
  header_underflow arch8 5 2 (by decide) (by decide) (by decide) (by decide)

/-- C3: for every archive (with a valid, non-underflowing header region) in
which the file size differs from `filetypes_end + filenames_size`, or
`filenames_size` differs from `num_files * 88` in exact integer arithmetic,
the run aborts with FormatError before extracting any file: no events are
emitted. -/
theorem size_checks (data : List Nat) (ts te ns nf : Nat)
    (h1 : read_u32 data 4 = some ts)
    (h2 : read_u32 data 8 = some te)
    (hle : ts ≤ te)
    (h3 : read_u32 data 12 = some ns)
    (h4 : read_u32 data ts = some nf)
    (h5 : data.length ≠ te + ns ∨ ns ≠ nf * 88) :
    runMain data = ([], some RgsError.formatError) := by
  have hlen : 12 + 4 ≤ data.length := read_u32_le data 12 ns h3
  obtain ⟨m, hm⟩ := read_u32_total data 0 (by omega)
  by_cases hmg : m = 0x52455334
  · subst hmg
    by_cases hcond : te + ns < 4294967296 ∧ data.length = te + ns
    · have hph : parseHeader data = Except.ok ⟨ts, te, ns⟩ := by
        simp only [parseHeader, hm, h1, h2, h3]
        rw [if_neg (fun hx => hx rfl), if_neg (by omega), if_pos hcond]
      have hns : ns ≠ nf * 88 := by
        rcases h5 with h5 | h5
        · exact absurd hcond.2 h5
        · exact h5
      have hpt : parseTypeTable data ⟨ts, te, ns⟩ = Except.error RgsError.formatError := by
        simp only [parseTypeTable]
        dsimp only
        rw [h4]
        dsimp only
        rw [if_neg (fun hx => hns hx.2)]
      simp only [runMain, hph, hpt]
    · have hph : parseHeader data = Except.error RgsError.formatError := by
        simp only [parseHeader, hm, h1, h2, h3]
        rw [if_neg (fun hx => hx rfl), if_neg (by omega), if_neg hcond]
      simp only [runMain, hph]
  · have hph : parseHeader data = Except.error RgsError.formatError := by
      simp only [parseHeader, hm]
      rw [if_pos hmg]
    simp only [runMain, hph]

/-- Witness for C3 at the concrete archive `arch3`: the 20-byte file declares
`filetypes_end + filenames_size = 116`, so the run aborts with FormatError
and no events. -/
theorem size_checks_witness :
    runMain arch3 = ([], some RgsError.formatError) :=
  size_checks arch3 16 16 100 0 (by decide) (by decide) (by decide) (by decide)
    (by decide) (Or.inl (by decide))

/-- C6: if any type-table entry has a kind other than the SND2 tag or a data
offset not below the file size, the run aborts with FormatError and emits no
events — no file is extracted. -/
theorem entry_checks (data : List Nat) (h : ArchiveHeader) (nf : Nat)
    (tt : List FileTypeEntry) (e : FileTypeEntry)
    (h1 : parseHeader data = Except.ok h)
    (h2 : read_u32 data h.filetypes_start = some nf)
    (h3 : read_file_type_table data (h.filetypes_start + 4) nf = some tt)
    (h4 : e ∈ tt)
    (h5 : e.kind ≠ 0x534E4432 ∨ data.length ≤ e.addr) :
    runMain data = ([], some RgsError.formatError) := by
  have hpt : parseTypeTable data h = Except.error RgsError.formatError := by
    simp only [parseTypeTable, h2]
    by_cases hc : nf * 88 < 4294967296 ∧ h.filenames_size = nf * 88
    · rw [if_pos hc, h3]
      dsimp only
      have hall : ¬ ∀ x ∈ tt, x.addr < data.length ∧ x.kind = 0x534E4432 := by
        intro hall
        rcases h5 with h5 | h5
        · exact h5 (hall e h4).2
        · exact absurd (hall e h4).1 (by omega)
      rw [if_neg hall]
    · rw [if_neg hc]
  simp only [runMain, h1, hpt]

/-- Witness for C6 at the concrete archive `arch6`, whose single type entry
has kind 0 instead of the SND2 tag. -/
theorem entry_checks_witness :
    runMain arch6 = ([], some RgsError.formatError) :=
  entry_checks arch6 ⟨16, 28, 88⟩ 1 [⟨0, 0⟩] ⟨0, 0⟩
    (by decide) (by decide) (by decide) (by decide) (Or.inl (by decide))

/-- C9: with the table-size check passed and every entry valid, the
type-table stage succeeds exactly when the read position after the count and
the `num_files` 8-byte entries — `filetypes_start + 4 + 8 * num_files` —
equals `filetypes_end`; when it does not, the run aborts with FormatError
before the name table is read, emitting no events. -/
theorem position_check (data : List Nat) (h : ArchiveHeader) (nf : Nat)
    (tt : List FileTypeEntry)
    (h1 : parseHeader data = Except.ok h)
    (h2 : read_u32 data h.filetypes_start = some nf)
    (h3 : nf * 88 < 4294967296 ∧ h.filenames_size = nf * 88)
    (h4 : read_file_type_table data (h.filetypes_start + 4) nf = some tt)
    (h5 : ∀ e ∈ tt, e.addr < data.length ∧ e.kind = 0x534E4432) :
    (parseTypeTable data h = Except.ok (nf, tt) ↔
      h.filetypes_start + 4 + 8 * nf = h.filetypes_end) ∧
    (h.filetypes_start + 4 + 8 * nf ≠ h.filetypes_end →
      runMain data = ([], some RgsError.formatError)) := by
  have heq : parseTypeTable data h =
      (if h.filetypes_start + 4 + 8 * nf = h.filetypes_end then Except.ok (nf, tt)
       else Except.error RgsError.formatError) := by
    simp only [parseTypeTable, h2]
    rw [if_pos h3, h4]
    dsimp only
    rw [if_pos h5]
  constructor
  · by_cases hp : h.filetypes_start + 4 + 8 * nf = h.filetypes_end
    · rw [heq, if_pos hp]
      exact iff_of_true rfl hp
    · rw [heq, if_neg hp]
      refine iff_of_false (fun hx => ?_) hp
      cases hx
  · intro hp
    have hpt : parseTypeTable data h = Except.error RgsError.formatError := by
      rw [heq, if_neg hp]
    simp only [runMain, h1, hpt]

/-- Witness for C9 at the concrete archive `arch9`, whose declared
filetypes_end (29) is one past the position reached after the single type
entry (28). -/
theorem position_check_witness :
    runMain arch9 = ([], some RgsError.formatError) :=
  (position_check arch9 ⟨16, 29, 88⟩ 1 [⟨0x534E4432, 0⟩]
    (by decide) (by decide) (by decide) (by decide) (by decide)).2 (by decide)

theorem read_file_name_entry_name (data : List Nat) (pos : Nat) (fe : FileNameEntry)
    (h : read_file_name_entry data pos = some fe) :
    read_padded_string data (pos+4) = some fe.name := by
  unfold read_file_name_entry at h
  rcases e1 : read_u32 data pos with _ | i
  · rw [e1] at h
    cases h
  · rw [e1] at h
    rcases e2 : read_padded_string data (pos+4) with _ | nm
    · rw [e2] at h
      cases h
    · rw [e2] at h
      rcases e3 : read_u32 data (pos+68) with _ | u2
      · rw [e3] at h
        cases h
      · rw [e3] at h
        rcases e4 : read_u32 data (pos+72) with _ | sz
        · rw [e4] at h
          cases h
        · rw [e4] at h
          rcases e5 : read_u32 data (pos+76) with _ | sr
          · rw [e5] at h
            cases h
          · rw [e5] at h
            rcases e6 : read_u32 data (pos+80) with _ | u5
            · rw [e6] at h
              cases h
            · rw [e6] at h
              rcases e7 : read_u32 data (pos+84) with _ | pc
              · rw [e7] at h
                cases h
              · rw [e7] at h
                dsimp only at h
                injection h with h2
                subst h2
                rfl

/-- C10: every decoded name entry's name has, as its character list, exactly
one character per byte of the 64-byte field strictly before its first nul
byte, contains no nul character, and is at most 64 characters long — for any
byte source, hence for both the inline and the tail-table records. -/
theorem name_invariant (data : List Nat) (pos : Nat) (fe : FileNameEntry)
    (hb : ∀ b ∈ data, b < 256)
    (h : read_file_name_entry data pos = some fe) :
    fe.name.data =
      (((data.drop (pos+4)).take 64).takeWhile (fun b => b != 0)).map Char.ofNat ∧
    Char.ofNat 0 ∉ fe.name.data ∧
    fe.name.data.length ≤ 64 := by
  have hps := read_file_name_entry_name data pos fe h
  unfold read_padded_string at hps
  rcases hrb : read_bytes data (pos+4) 64 with _ | bs
  · rw [hrb] at hps
    cases hps
  · rw [hrb] at hps
    simp only [Option.map_some'] at hps
    injection hps with hname
    have hbs := read_bytes_eq data (pos+4) 64 bs hrb
    have hdata : fe.name.data = (bs.takeWhile (fun b => b != 0)).map Char.ofNat := by
      rw [← hname]
      rfl
    refine ⟨?_, ?_, ?_⟩
    · rw [hdata, ← hbs]
    · rw [hdata]
      intro hmem
      obtain ⟨b, hbmem, hbeq⟩ := List.mem_map.mp hmem
      have hbne : b ≠ 0 := by simpa using List.mem_takeWhile_imp hbmem
      have hbin : b ∈ data := by
        have t1 := List.takeWhile_subset _ hbmem
        rw [hbs] at t1
        exact List.drop_subset _ _ (List.take_subset _ _ t1)
      have hblt : b < 256 := hb b hbin
      have htn : (Char.ofNat b).toNat = b := char_ofNat_toNat b (by omega)
      rw [hbeq] at htn
      have hzn : (Char.ofNat 0).toNat = 0 := by decide
      omega
    · rw [hdata, List.length_map]
      have t2 : (bs.takeWhile (fun b => b != 0)).length ≤ bs.length :=
        (List.takeWhile_sublist _).length_le
      have t3 : bs.length ≤ 64 := by
        rw [hbs, List.length_take]
        omega
      omega

set_option maxRecDepth 10000 in
/-- Witness for C10 at the inline descriptor of `arch1` (offset 16, name
field at 20): the decoded name "b" satisfies all three parts. -/
theorem name_invariant_witness :
    ("b" : String).data =
      (((arch1.drop 20).take 64).takeWhile (fun b => b != 0)).map Char.ofNat ∧
    Char.ofNat 0 ∉ ("b" : String).data ∧
    ("b" : String).data.length ≤ 64 :=
  name_invariant arch1 16 ⟨0, "b", 0, 1, 0, 0, 0⟩ (by decide) (by decide)
